import Mathlib

/-!
Shallow embedding of the Python thermocouple reader
(`cli_reader.py` and `qt_gui_reader.py`) and proofs about the
spec claims for its acquisition engine.

Times (monotonic clock) and temperatures are modelled as rationals;
raw channel readings are `Option ℚ` (Python `Optional[float]`);
a raw read result is `Option (List (Option ℚ))` (Python
`read_temperatures()` may return `None` or a list).
-/

namespace Thermo

/-- A canonical sample: local timestamp string plus four optional channel
readings, mirroring the `Sample` dataclass in `qt_gui_reader.py` and the
`ts, ch1, ch2, ch3, ch4` tuple in `cli_reader.py`. -/
structure Sample where
  ts : String
  ch1 : Option ℚ
  ch2 : Option ℚ
  ch3 : Option ℚ
  ch4 : Option ℚ
deriving DecidableEq

/-! ## Sample pipeline (`cli_reader.py` lines 110-118, `qt_gui_reader.py` lines 89-97)

Python: `if temps and len(temps) >= 4: ch1, ch2, ch3, ch4 = temps[:4]
else: ch1 = ch2 = ch3 = ch4 = None`.  A `None` result or an empty list is
falsy, so the guard is: result present, nonempty, and at least 4 long. -/

/-- `mkSample ts temps` builds the Sample exactly as both front ends do. -/
def mkSample (ts : String) (temps : Option (List (Option ℚ))) : Sample :=
  match temps with
  | none => ⟨ts, none, none, none, none⟩
  | some l =>
      if l ≠ [] ∧ 4 ≤ l.length then
        ⟨ts, l.getD 0 none, l.getD 1 none, l.getD 2 none, l.getD 3 none⟩
      else
        ⟨ts, none, none, none, none⟩

/-- How Python `csv.writer` renders one field: `None` becomes the empty
string, a number becomes its decimal text. -/
def csvField (v : Option ℚ) : String :=
  match v with
  | none => ""
  | some q => toString q

/-- The row the durable sink writes for a sample
(`w.writerow([ts, ch1, ch2, ch3, ch4])`). -/
def sampleRow (s : Sample) : List String :=
  [s.ts, csvField s.ch1, csvField s.ch2, csvField s.ch3, csvField s.ch4]

/-! ## File-open decision (`cli_reader.py` lines 70-72, `qt_gui_reader.py` lines 234-243)

CLI:  `open_mode = "a" if (args.append or file_exists) else "w"`,
      `write_header = not (args.append or file_exists)`.
GUI:  `mode = "a" if (append and exists) else "w"`,
      header written when `not (append and exists)`. -/

/-- CLI front end: (open mode, write-header) from (append flag, target exists). -/
def cliDecision (append fileEx : Bool) : String × Bool :=
  ((if append || fileEx then "a" else "w"), !(append || fileEx))

/-- GUI front end: (open mode, write-header) from (append flag, target exists). -/
def guiDecision (append fileEx : Bool) : String × Bool :=
  ((if append && fileEx then "a" else "w"), !(append && fileEx))

/-- The property claimed of a durable-sink decision function: a header is
written iff the target did not exist and the mode is not append, and in
every other combination existing content is preserved (mode `"a"` whenever
the target exists). -/
def headerOnlyWhenFresh (dec : Bool → Bool → String × Bool) : Prop :=
  ∀ append fileEx,
    ((dec append fileEx).2 = true ↔ (append = false ∧ fileEx = false)) ∧
    (fileEx = true → (dec append fileEx).1 = "a")

instance : DecidablePred headerOnlyWhenFresh := by
  intro dec
  unfold headerOnlyWhenFresh
  infer_instance

/-! ## Durable log file semantics

A file's content is a list of rows; a row is either the header row or a
data row for one sample.  Opening with mode `"w"` truncates, `"a"` keeps
the existing content; the header is then written per the decision, and
each accepted sample appends one data row. -/

inductive Row where
  | header
  | data (s : Sample)
deriving DecidableEq

/-- Open the target per a front end's decision function and write `samples`
through the sink.  `target = none` means the file did not previously exist;
`some rows` is its prior content. -/
def openAndRun (dec : Bool → Bool → String × Bool) (append : Bool)
    (target : Option (List Row)) (samples : List Sample) : List Row :=
  let fileEx := target.isSome
  let d := dec append fileEx
  let base := if d.1 = "a" then target.getD [] else []
  let hdr := if d.2 then [Row.header] else []
  base ++ hdr ++ samples.map Row.data

/-- Whether a row is the header row. -/
def isHeader (r : Row) : Bool :=
  match r with
  | Row.header => true
  | Row.data _ => false

/-- A concrete sample used to instantiate concrete runs. -/
def sampA : Sample := ⟨"t", some 1, none, none, none⟩

/-- A second concrete sample used to instantiate concrete runs. -/
def sampB : Sample := ⟨"u", some 2, none, none, none⟩

/-! ## Drift-compensated scheduler
(`cli_reader.py` lines 98-108, `qt_gui_reader.py` lines 80-87)

Python per iteration:
  `now_m = time.monotonic(); sleep_s = next_t - now_m;
   if sleep_s > 0: time.sleep(sleep_s); next_t += interval; <read>`.
The read's duration is an arbitrary latency added to the clock. -/

/-- Scheduler state: the next deadline `next_t` and the monotonic clock. -/
structure SchedState where
  next_t : ℚ
  now : ℚ
deriving DecidableEq

/-- The sleep step: sleep for `next_t - now` when that is positive,
otherwise proceed immediately. -/
def schedSleep (s : SchedState) : SchedState :=
  let sleep_s := s.next_t - s.now
  if 0 < sleep_s then { s with now := s.now + sleep_s } else s

/-- One scheduler iteration: sleep until the deadline, advance the deadline
by `interval` before the read, then the read consumes `lat` time. -/
def schedTick (interval lat : ℚ) (s : SchedState) : SchedState :=
  let s1 := schedSleep s
  { next_t := s1.next_t + interval, now := s1.now + lat }

/-- Run the scheduler through one iteration per read latency in `lats`. -/
def schedRun (interval : ℚ) (lats : List ℚ) (s : SchedState) : SchedState :=
  match lats with
  | [] => s
  | l :: ls => schedRun interval ls (schedTick interval l s)

/-! ## CLI acquisition loop (`cli_reader.py` lines 88-125)

`samples_written` starts at 0; each iteration reads, builds the sample,
writes the row, increments, and breaks when
`args.count > 0 and samples_written >= args.count`. -/

/-- The CLI loop, fuelled.  `reads i` is the device result on tick `i`;
returns the ordered list of samples written when the loop reaches its
break, `none` if the fuel runs out first. -/
def cliAcquire (count : Nat) (reads : Nat → Option (List (Option ℚ)))
    (tss : Nat → String) :
    Nat → Nat → List Sample → Option (List Sample)
  | 0, _, _ => none
  | fuel + 1, written, acc =>
      let s := mkSample (tss written) (reads written)
      let acc1 := acc ++ [s]
      let written1 := written + 1
      if 0 < count ∧ count ≤ written1 then some acc1
      else cliAcquire count reads tss fuel written1 acc1

/-! ## GUI worker loop (`qt_gui_reader.py` lines 82-97, 109-110)

`while not self._stop:` checks the stop flag only at the top of each
iteration; `stop()` just sets the flag.  `stopFlag i` is the flag's value
at boundary check `i`; each non-stopped iteration emits one sample. -/

/-- The worker loop, fuelled: number of samples emitted, with the stop
flag sampled only at tick boundaries. -/
def workerRun (stopFlag : Nat → Bool) : Nat → Nat → Nat → Nat
  | 0, _, emitted => emitted
  | fuel + 1, i, emitted =>
      if stopFlag i then emitted
      else workerRun stopFlag fuel (i + 1) (emitted + 1)

/-! ## Teardown traces (`cli_reader.py` lines 90-131, `qt_gui_reader.py` lines 99-107)

CLI: the loop body sits in `with open(...) as f:` inside
`try: ... except KeyboardInterrupt: ... finally: reader.close()`;
an exception closes the file (leaving the `with`), runs the `finally`
(closing the reader), and only then propagates to the caller.
GUI worker: `except Exception as e: self.error.emit(str(e))` runs first,
then the `finally` closes the reader, emits status and `finished`;
the `finished` handler closes the CSV file. -/

inductive Ev where
  | sinkClosed
  | sourceClosed
  | errorSurfaced
  | statusEmitted
  | finishedEmitted
deriving DecidableEq

inductive ExitCause where
  | limitReached
  | interrupted
  | loopError
deriving DecidableEq

/-- Ordered teardown events of the CLI run for each way the loop ends. -/
def cliTeardown (c : ExitCause) : List Ev :=
  match c with
  | ExitCause.limitReached => [Ev.sinkClosed, Ev.sourceClosed]
  | ExitCause.interrupted => [Ev.sinkClosed, Ev.sourceClosed]
  | ExitCause.loopError => [Ev.sinkClosed, Ev.sourceClosed, Ev.errorSurfaced]

/-- Ordered teardown events of the GUI worker (plus the `on_finished`
CSV close it triggers) for each way its loop ends.  A stop request or the
natural end of the loop raises nothing; an exception is emitted in the
`except` block before the `finally` runs. -/
def guiTeardown (c : ExitCause) : List Ev :=
  match c with
  | ExitCause.loopError =>
      [Ev.errorSurfaced, Ev.sourceClosed, Ev.statusEmitted,
       Ev.finishedEmitted, Ev.sinkClosed]
  | _ =>
      [Ev.sourceClosed, Ev.statusEmitted, Ev.finishedEmitted, Ev.sinkClosed]

/-- The release property the claim asserts of a teardown trace: the source
and the sink are both closed and, when an error is surfaced, both closes
appear strictly before the first surfaced error. -/
def releasedBeforeError (tr : List Ev) : Prop :=
  Ev.sourceClosed ∈ tr ∧ Ev.sinkClosed ∈ tr ∧
  (Ev.errorSurfaced ∈ tr →
    Ev.sourceClosed ∈ tr.takeWhile (fun e => !(decide (e = Ev.errorSurfaced))) ∧
    Ev.sinkClosed ∈ tr.takeWhile (fun e => !(decide (e = Ev.errorSurfaced))))

instance (tr : List Ev) : Decidable (releasedBeforeError tr) := by
  unfold releasedBeforeError
  infer_instance

/-! ## Config validation (`cli_reader.py` lines 60-80, `qt_gui_reader.py` lines 161-165)

CLI `main` checks `args.interval <= 0` and returns exit code 2 before the
serial port is opened and before the output file is touched.
GUI: the interval spin box has `setRange(0.1, 3600.0)`, so any entered
value is clamped into `[0.1, 3600]`. -/

inductive IoEv where
  | serialOpened
  | fileOpened
  | tick
deriving DecidableEq

/-- The prefix of CLI `main` that decides the interval check: result is the
exit code (when it returns early) together with the I/O events performed
up to and including opening the output file.  An interval `≤ 0` returns
exit code 2 with no I/O; otherwise the serial port and then the file are
opened. -/
def cliStart (interval : ℚ) : Option Nat × List IoEv :=
  if interval ≤ 0 then (some 2, [])
  else (none, [IoEv.serialOpened, IoEv.fileOpened])

/-- Value held by a Qt spin box with range `[lo, hi]`: every input is
clamped into the range. -/
def spinValue (lo hi v : ℚ) : ℚ :=
  max lo (min hi v)

/-! ## Bounded live-buffer sink (`qt_gui_reader.py` lines 129-133, 297-326)

`on_sample` appends `self.idx` to `self.x` and, per channel, the value or
`float("nan")` to `self.y[i]`; then if `len(self.x) > self.max_points` it
deletes the first `drop = len(self.x) - self.max_points` entries of `x`
and of every `y[i]`. -/

/-- A plot-buffer entry: the NaN marker used for unknown readings, or a
numeric value. -/
inductive PlotEntry where
  | nanMarker
  | val (q : ℚ)
deriving DecidableEq

/-- `vals[i] if vals[i] is not None else float("nan")`. -/
def entryOf (v : Option ℚ) : PlotEntry :=
  match v with
  | none => PlotEntry.nanMarker
  | some q => PlotEntry.val q

/-- Plot buffers of `MainWindow`: x axis, one buffer per channel, and the
running sample index. -/
structure PlotState where
  x : List Nat
  y1 : List PlotEntry
  y2 : List PlotEntry
  y3 : List PlotEntry
  y4 : List PlotEntry
  idx : Nat
deriving DecidableEq

/-- `MainWindow.on_sample`, restricted to the plot buffers. -/
def on_sample (maxPoints : Nat) (s : Sample) (st : PlotState) : PlotState :=
  let x1 := st.x ++ [st.idx]
  let b1 := st.y1 ++ [entryOf s.ch1]
  let b2 := st.y2 ++ [entryOf s.ch2]
  let b3 := st.y3 ++ [entryOf s.ch3]
  let b4 := st.y4 ++ [entryOf s.ch4]
  if maxPoints < x1.length then
    let drop := x1.length - maxPoints
    ⟨x1.drop drop, b1.drop drop, b2.drop drop, b3.drop drop, b4.drop drop,
     st.idx + 1⟩
  else
    ⟨x1, b1, b2, b3, b4, st.idx + 1⟩

/-- The buffer invariant: every channel buffer has the x buffer's length,
and that length is at most `maxPoints`. -/
def plotInv (maxPoints : Nat) (st : PlotState) : Prop :=
  st.x.length ≤ maxPoints ∧
  st.y1.length = st.x.length ∧ st.y2.length = st.x.length ∧
  st.y3.length = st.x.length ∧ st.y4.length = st.x.length

/-! ## Helper lemmas -/

/-- The deadline after running any list of read latencies is the start
deadline plus one `interval` per iteration: latencies never enter it. -/
theorem schedRun_next_t (interval : ℚ) (lats : List ℚ) :
    ∀ s : SchedState,
      (schedRun interval lats s).next_t = s.next_t + lats.length * interval := by
  induction lats with
  | nil => intro s; simp [schedRun]
  | cons l ls ih =>
      intro s
      have hs : (schedTick interval l s).next_t = s.next_t + interval := by
        by_cases h0 : 0 < s.next_t - s.now <;>
          simp [schedTick, schedSleep, h0]
      show (schedRun interval ls (schedTick interval l s)).next_t = _
      rw [ih, hs]
      simp only [List.length_cons]
      push_cast
      ring

/-- The sleep step wakes at `max now next_t`. -/
theorem schedSleep_now (s : SchedState) :
    (schedSleep s).now = max s.now s.next_t := by
  by_cases h0 : 0 < s.next_t - s.now
  · have hle : s.now ≤ s.next_t := by linarith
    simp only [schedSleep, if_pos h0]
    rw [max_eq_right hle]
    ring
  · have hle : s.next_t ≤ s.now := by linarith
    simp only [schedSleep, if_neg h0]
    rw [max_eq_left hle]

/-- `cliAcquire` with enough fuel returns exactly the samples of ticks
`written, written+1, …, count-1` appended to the accumulator. -/
theorem cliAcquire_eq (count : Nat) (reads : Nat → Option (List (Option ℚ)))
    (tss : Nat → String) :
    ∀ fuel written acc, 0 < count → written < count → count ≤ written + fuel →
      cliAcquire count reads tss fuel written acc =
        some (acc ++ (List.range (count - written)).map
          (fun j => mkSample (tss (written + j)) (reads (written + j)))) := by
  intro fuel
  induction fuel with
  | zero => intro written acc _ h1 h2; omega
  | succ fuel ih =>
      intro written acc hpos hlt hle
      by_cases hc : count ≤ written + 1
      · have hcw : count - written = 1 := by omega
        simp only [cliAcquire, if_pos (And.intro hpos hc), hcw]
        simp [List.range_succ]
      · have hcond : ¬ (0 < count ∧ count ≤ written + 1) := by
          intro hh; exact hc hh.2
        simp only [cliAcquire, if_neg hcond]
        rw [ih (written + 1) _ hpos (by omega) (by omega)]
        congr 1
        rw [List.append_assoc]
        congr 1
        have hsplit : count - written = (count - (written + 1)) + 1 := by omega
        rw [hsplit, List.range_succ_eq_map, List.map_cons, List.map_map]
        simp only [Nat.add_zero, List.singleton_append]
        congr 1
        apply List.map_congr_left
        intro a _
        have h2 : written + 1 + a = written + (a + 1) := by omega
        simp [Function.comp, Nat.succ_eq_add_one, h2]

/-- The tick step advances the deadline by exactly `interval`,
independently of the read latency. -/
theorem schedTick_next_t (interval lat : ℚ) (s : SchedState) :
    (schedTick interval lat s).next_t = s.next_t + interval := by
  by_cases h0 : 0 < s.next_t - s.now <;>
    simp [schedTick, schedSleep, h0]

/-- `workerRun` counts one sample per boundary check up to the first index
where the stop flag is seen, capped by the fuel. -/
theorem workerRun_eq (stopFlag : Nat → Bool) (r : Nat)
    (hbefore : ∀ j, j < r → stopFlag j = false) (hr : stopFlag r = true) :
    ∀ fuel i emitted, i ≤ r →
      workerRun stopFlag fuel i emitted = emitted + min fuel (r - i) := by
  intro fuel
  induction fuel with
  | zero => intro i emitted _; simp [workerRun]
  | succ fuel ih =>
      intro i emitted hi
      by_cases hfl : stopFlag i = true
      · have hir : i = r := by
          by_contra hne
          have : i < r := by omega
          rw [hbefore i this] at hfl
          exact Bool.false_ne_true hfl
        subst hir
        simp [workerRun, hfl]
      · have hiv : i < r := by
          rcases Nat.lt_or_ge i r with h | h
          · exact h
          · have : i = r := by omega
            subst this
            exact absurd hr hfl
        have hfl2 : stopFlag i = false := by
          cases h : stopFlag i
          · rfl
          · exact absurd h hfl
        simp only [workerRun, hfl2, Bool.false_eq_true, if_neg, not_false_iff]
        rw [ih (i + 1) (emitted + 1) (by omega)]
        omega

/-- Data rows never pass the header filter. -/
theorem filter_isHeader_map_data (l : List Sample) :
    (l.map Row.data).filter isHeader = [] := by
  induction l with
  | nil => rfl
  | cons s t ih => simp [List.filter_cons, isHeader, ih]

/-- Data rows all pass the non-header filter. -/
theorem filter_not_isHeader_map_data (l : List Sample) :
    (l.map Row.data).filter (fun r => !(isHeader r)) = l.map Row.data := by
  induction l with
  | nil => rfl
  | cons s t ih => simp [List.filter_cons, isHeader, ih]

/-! ## Claim theorems -/

/-- Claim C1: the sampling scheduler is drift-compensated.  For every run
the deadline reached after any `i ≤ lats.length` iterations is exactly
`t0 + i * interval`, whatever the read latencies were, so latencies never
accumulate into later deadlines; the sleep step wakes at
`max now nextDeadline` (it sleeps only while behind the deadline and
proceeds immediately with no catch-up burst otherwise); and one tick
advances the deadline by exactly `interval` independently of the read
latency, since the advance happens before the read. -/
theorem claim_C1_drift_compensated (interval t0 now0 lat : ℚ)
    (lats : List ℚ) (i : ℕ) (s : SchedState) (hi : i ≤ lats.length) :
    (schedRun interval (lats.take i) ⟨t0, now0⟩).next_t
      = t0 + (i : ℚ) * interval ∧
    (schedSleep s).now = max s.now s.next_t ∧
    (schedTick interval lat s).next_t = s.next_t + interval := by
  refine ⟨?_, schedSleep_now s, schedTick_next_t interval lat s⟩
  rw [schedRun_next_t]
  simp [List.length_take, Nat.min_eq_left hi]

/-- Claim C1 witness at `interval = 5`, latencies `[1, 7, 2]`, `i = 2`,
state `⟨next_t = 3, now = 7⟩`, read latency `4`. -/
theorem claim_C1_drift_compensated_witness :
    (schedRun 5 ([1, 7, 2].take 2) ⟨0, 0⟩).next_t = 0 + (2 : ℚ) * 5 ∧
    (schedSleep ⟨3, 7⟩).now = max 7 3 ∧
    (schedTick 5 4 ⟨3, 7⟩).next_t = 3 + 5 :=
  claim_C1_drift_compensated 5 0 0 4 [1, 7, 2] 2 ⟨3, 7⟩ (by decide)

/-- Claim C2 counterexample: the GUI durable sink, opened with
`appendMode = false` on an existing target, chooses mode `"w"` (truncating
the existing content) and writes a header — the claim requires no header
and preserved content in that combination. -/
theorem claim_C2_counterexample :
    guiDecision false true = ("w", true) ∧
    ¬ headerOnlyWhenFresh guiDecision := by
  constructor
  · rfl
  · decide

/-- Claim C2 as amended: the CLI durable sink writes a header iff the
target did not exist and the mode is not append, preserving content in all
other combinations; the GUI sink instead writes a header iff not
(append ∧ exists) and keeps existing content only when append ∧ exists. -/
theorem claim_C2_header_rule :
    headerOnlyWhenFresh cliDecision ∧
    (∀ a f : Bool, (guiDecision a f).2 = !(a && f) ∧
      ((guiDecision a f).1 = "a" ↔ (a && f) = true)) := by
  constructor
  · decide
  · decide

/-- Claim C3: a raw read that is absent, empty, or shorter than 4 values
yields a Sample with all four channels set to the unknown marker `none`,
and the durable sink writes it as a row whose four channel fields are
empty — and the empty field is neither the text `0` nor the text `NaN`. -/
theorem claim_C3_unknown_readings (ts : String)
    (temps : Option (List (Option ℚ)))
    (h : temps = none ∨ ∃ l, temps = some l ∧ l.length < 4) :
    (mkSample ts temps).ch1 = none ∧ (mkSample ts temps).ch2 = none ∧
    (mkSample ts temps).ch3 = none ∧ (mkSample ts temps).ch4 = none ∧
    sampleRow (mkSample ts temps) = [ts, "", "", "", ""] ∧
    "" ≠ "0" ∧ "" ≠ "NaN" := by
  have hrow : mkSample ts temps = ⟨ts, none, none, none, none⟩ := by
    rcases h with h | ⟨l, hl, hlen⟩
    · subst h; rfl
    · subst hl
      have hng : ¬ (l ≠ [] ∧ 4 ≤ l.length) := by
        intro hh
        omega
      simp [mkSample, hng]
  rw [hrow]
  refine ⟨rfl, rfl, rfl, rfl, rfl, by decide, by decide⟩

/-- Claim C3 witness: a one-element raw read. -/
theorem claim_C3_unknown_readings_witness :
    (mkSample "x" (some [some 1])).ch1 = none ∧
    (mkSample "x" (some [some 1])).ch2 = none ∧
    (mkSample "x" (some [some 1])).ch3 = none ∧
    (mkSample "x" (some [some 1])).ch4 = none ∧
    sampleRow (mkSample "x" (some [some 1])) = ["x", "", "", "", ""] ∧
    "" ≠ "0" ∧ "" ≠ "NaN" :=
  claim_C3_unknown_readings "x" (some [some 1])
    (Or.inr ⟨[some 1], rfl, by simp⟩)

/-- Claim C4: with `sampleLimit = count > 0` and enough fuel, the CLI loop
terminates with exactly `count` samples — one per tick, in tick order —
written to the CSV sink, and performs no further ticks afterwards (the
result does not depend on the extra fuel). -/
theorem claim_C4_sample_limit (count fuel : Nat)
    (reads : Nat → Option (List (Option ℚ))) (tss : Nat → String)
    (hpos : 0 < count) (hfuel : count ≤ fuel) :
    cliAcquire count reads tss fuel 0 [] =
      some ((List.range count).map (fun j => mkSample (tss j) (reads j))) ∧
    ((List.range count).map
      (fun j => mkSample (tss j) (reads j))).length = count := by
  constructor
  · have h := cliAcquire_eq count reads tss fuel 0 [] hpos hpos (by omega)
    simpa using h
  · simp

/-- Claim C4 witness: limit 2 with fuel 3 produces exactly 2 samples. -/
theorem claim_C4_sample_limit_witness :
    cliAcquire 2 (fun _ => (none : Option (List (Option ℚ))))
        (fun _ => "") 3 0 [] =
      some ((List.range 2).map (fun _ => mkSample "" none)) ∧
    ((List.range 2).map
      (fun _ => mkSample "" (none : Option (List (Option ℚ))))).length = 2 :=
  claim_C4_sample_limit 2 3 (fun _ => none) (fun _ => "")
    (by decide) (by decide)

/-- Claim C5: writing `M > 0` samples with `appendMode = false` to a fresh
target and then re-opening the same target with `appendMode = true` and
writing `M` more yields, in both front ends, a file with exactly one
header row followed by the `2M` data rows in emission order. -/
theorem claim_C5_roundtrip (M : Nat) (samples1 samples2 : List Sample)
    (hM : 0 < M) (h1 : samples1.length = M) (h2 : samples2.length = M) :
    openAndRun cliDecision true
        (some (openAndRun cliDecision false none samples1)) samples2 =
      Row.header :: (samples1 ++ samples2).map Row.data ∧
    openAndRun guiDecision true
        (some (openAndRun guiDecision false none samples1)) samples2 =
      Row.header :: (samples1 ++ samples2).map Row.data ∧
    ((Row.header :: (samples1 ++ samples2).map Row.data).filter
        isHeader).length = 1 ∧
    ((Row.header :: (samples1 ++ samples2).map Row.data).filter
        (fun r => !(isHeader r))).length = 2 * M := by
  have hc1 : openAndRun cliDecision false none samples1
      = Row.header :: samples1.map Row.data := by
    simp [openAndRun, cliDecision]
  have hg1 : openAndRun guiDecision false none samples1
      = Row.header :: samples1.map Row.data := by
    simp [openAndRun, guiDecision]
  refine ⟨?_, ?_, ?_, ?_⟩
  · rw [hc1]
    simp [openAndRun, cliDecision]
  · rw [hg1]
    simp [openAndRun, guiDecision]
  · simp [List.filter_cons, isHeader, filter_isHeader_map_data]
  · have hstep : (Row.header :: (samples1 ++ samples2).map Row.data).filter
        (fun r => !(isHeader r))
        = ((samples1 ++ samples2).map Row.data).filter
          (fun r => !(isHeader r)) := rfl
    rw [hstep, filter_not_isHeader_map_data]
    simp [h1, h2]
    omega

/-- Claim C5 witness at `M = 1`. -/
theorem claim_C5_roundtrip_witness :
    openAndRun cliDecision true
        (some (openAndRun cliDecision false none [sampA])) [sampB] =
      Row.header :: ([sampA] ++ [sampB]).map Row.data ∧
    openAndRun guiDecision true
        (some (openAndRun guiDecision false none [sampA])) [sampB] =
      Row.header :: ([sampA] ++ [sampB]).map Row.data ∧
    ((Row.header :: ([sampA] ++ [sampB]).map Row.data).filter
        isHeader).length = 1 ∧
    ((Row.header :: ([sampA] ++ [sampB]).map Row.data).filter
        (fun r => !(isHeader r))).length = 2 * 1 :=
  claim_C5_roundtrip 1 [sampA] [sampB] (by decide) (by simp) (by simp)

/-- Claim C6: the GUI worker checks the stop flag only at tick boundaries.
If the flag is first seen set at boundary check `r` — a request issued
while tick `r-1` was in flight, or between ticks — then the samples
emitted are exactly `min fuel r`: the in-flight tick completes, and no
tick starts after the flag is observed; in particular at most one sample
follows the request. -/
theorem claim_C6_stop_at_boundary (stopFlag : Nat → Bool) (r fuel : Nat)
    (hbefore : ∀ j, j < r → stopFlag j = false)
    (hr : stopFlag r = true) :
    workerRun stopFlag fuel 0 0 = min fuel r := by
  have h := workerRun_eq stopFlag r hbefore hr fuel 0 0 (by omega)
  simpa using h

/-- Claim C6 witness: a stop request visible from boundary check 1 on
ends the run with exactly one sample. -/
theorem claim_C6_stop_at_boundary_witness :
    workerRun (fun i => decide (1 ≤ i)) 5 0 0 = 1 :=
  (claim_C6_stop_at_boundary (fun i => decide (1 ≤ i)) 1 5
    (fun j hj => by
      have hj0 : j = 0 := by omega
      subst hj0
      decide)
    (by decide)).trans (by decide)

/-- Claim C7 counterexample: on an error raised in the GUI worker's
acquisition loop, the error is emitted in the `except` block before the
`finally` closes the Channel Source and before the CSV file is closed, so
the release does not precede the surfaced error on that exit path. -/
theorem claim_C7_counterexample :
    ¬ releasedBeforeError (guiTeardown ExitCause.loopError) := by
  decide

/-- Claim C7 as amended: every exit path of both front ends closes the
Channel Source and flushes/closes the durable sink — no path skips the
release — and the CLI performs both closes before surfacing the error;
the GUI worker, however, emits the error first and releases afterwards. -/
theorem claim_C7_release_on_exit (c : ExitCause) :
    releasedBeforeError (cliTeardown c) ∧
    Ev.sourceClosed ∈ guiTeardown c ∧ Ev.sinkClosed ∈ guiTeardown c ∧
    (guiTeardown ExitCause.loopError).head? = some Ev.errorSurfaced := by
  cases c <;> decide

/-- Claim C7 amended witness at the loop-error exit cause. -/
theorem claim_C7_release_on_exit_witness :
    releasedBeforeError (cliTeardown ExitCause.loopError) ∧
    Ev.sourceClosed ∈ guiTeardown ExitCause.loopError ∧
    Ev.sinkClosed ∈ guiTeardown ExitCause.loopError ∧
    (guiTeardown ExitCause.loopError).head? = some Ev.errorSurfaced :=
  claim_C7_release_on_exit ExitCause.loopError

/-- Claim C8: an interval that is zero or negative is rejected by the CLI
synchronously at configuration time with exit code 2 — before the serial
port is opened, before the output file is created, and before any tick —
and the GUI interval spin box clamps every input into `[0.1, 3600]`, so
its configured interval is always positive. -/
theorem claim_C8_interval_validation (interval v : ℚ)
    (h : interval ≤ 0) :
    cliStart interval = (some 2, []) ∧ 0 < spinValue 0.1 3600 v := by
  constructor
  · simp [cliStart, h]
  · have h1 : (0.1 : ℚ) ≤ spinValue 0.1 3600 v := le_max_left _ _
    have h2 : (0 : ℚ) < 0.1 := by norm_num
    linarith

/-- Claim C8 witness at `interval = -1` and spin-box input `-7`. -/
theorem claim_C8_interval_validation_witness :
    cliStart (-1) = (some 2, []) ∧ 0 < spinValue 0.1 3600 (-7) :=
  claim_C8_interval_validation (-1) (-7) (by norm_num)

/-- Claim C9: after accepting any sample, the plot buffers keep every
channel buffer at the x buffer's length, bounded by `maxPoints`; the new
buffers are the appended buffers with the oldest entries dropped from the
front (FIFO eviction by exactly the overflow amount, zero when within
capacity); the per-channel entry appended is `entryOf` of the reading, so
an unknown reading is stored as the NaN marker, which differs from the
numeric value `q` — in particular from 0. -/
theorem claim_C9_buffer_invariant (maxPoints : Nat) (s : Sample)
    (st : PlotState) (q : ℚ) (hinv : plotInv maxPoints st) :
    plotInv maxPoints (on_sample maxPoints s st) ∧
    (on_sample maxPoints s st).x
      = (st.x ++ [st.idx]).drop ((st.x.length + 1) - maxPoints) ∧
    (on_sample maxPoints s st).y1
      = (st.y1 ++ [entryOf s.ch1]).drop ((st.x.length + 1) - maxPoints) ∧
    (on_sample maxPoints s st).y2
      = (st.y2 ++ [entryOf s.ch2]).drop ((st.x.length + 1) - maxPoints) ∧
    (on_sample maxPoints s st).y3
      = (st.y3 ++ [entryOf s.ch3]).drop ((st.x.length + 1) - maxPoints) ∧
    (on_sample maxPoints s st).y4
      = (st.y4 ++ [entryOf s.ch4]).drop ((st.x.length + 1) - maxPoints) ∧
    entryOf none = PlotEntry.nanMarker ∧
    PlotEntry.nanMarker ≠ PlotEntry.val q := by
  obtain ⟨hmax, e1, e2, e3, e4⟩ := hinv
  by_cases hov : maxPoints < (st.x ++ [st.idx]).length
  · have hlen : (st.x ++ [st.idx]).length = st.x.length + 1 := by simp
    refine ⟨?_, ?_, ?_, ?_, ?_, ?_, rfl, by simp⟩
    · simp only [on_sample, if_pos hov, plotInv]
      simp [e1, e2, e3, e4]
      omega
    all_goals
      simp only [on_sample, if_pos hov]
      simp [hlen]
  · have hle : st.x.length + 1 ≤ maxPoints := by
      have hlen : (st.x ++ [st.idx]).length = st.x.length + 1 := by simp
      omega
    have hz : (st.x.length + 1) - maxPoints = 0 := by omega
    refine ⟨?_, ?_, ?_, ?_, ?_, ?_, rfl, by simp⟩
    · simp only [on_sample, if_neg hov, plotInv]
      simp [e1, e2, e3, e4]
      omega
    all_goals
      simp only [on_sample, if_neg hov]
      simp [hz]

/-- Claim C9 witness: a full buffer of one entry with `maxPoints = 1`
accepting a sample with an unknown first channel. -/
theorem claim_C9_buffer_invariant_witness :
    plotInv 1 (on_sample 1 ⟨"t", none, some 2, none, none⟩
      ⟨[0], [PlotEntry.val 1], [PlotEntry.val 1], [PlotEntry.val 1],
        [PlotEntry.val 1], 1⟩) ∧
    (on_sample 1 ⟨"t", none, some 2, none, none⟩
      ⟨[0], [PlotEntry.val 1], [PlotEntry.val 1], [PlotEntry.val 1],
        [PlotEntry.val 1], 1⟩).x = ([0] ++ [1]).drop ((1 + 1) - 1) ∧
    (on_sample 1 ⟨"t", none, some 2, none, none⟩
      ⟨[0], [PlotEntry.val 1], [PlotEntry.val 1], [PlotEntry.val 1],
        [PlotEntry.val 1], 1⟩).y1
      = ([PlotEntry.val 1] ++ [entryOf none]).drop ((1 + 1) - 1) ∧
    (on_sample 1 ⟨"t", none, some 2, none, none⟩
      ⟨[0], [PlotEntry.val 1], [PlotEntry.val 1], [PlotEntry.val 1],
        [PlotEntry.val 1], 1⟩).y2
      = ([PlotEntry.val 1] ++ [entryOf (some 2)]).drop ((1 + 1) - 1) ∧
    (on_sample 1 ⟨"t", none, some 2, none, none⟩
      ⟨[0], [PlotEntry.val 1], [PlotEntry.val 1], [PlotEntry.val 1],
        [PlotEntry.val 1], 1⟩).y3
      = ([PlotEntry.val 1] ++ [entryOf none]).drop ((1 + 1) - 1) ∧
    (on_sample 1 ⟨"t", none, some 2, none, none⟩
      ⟨[0], [PlotEntry.val 1], [PlotEntry.val 1], [PlotEntry.val 1],
        [PlotEntry.val 1], 1⟩).y4
      = ([PlotEntry.val 1] ++ [entryOf none]).drop ((1 + 1) - 1) ∧
    entryOf none = PlotEntry.nanMarker ∧
    PlotEntry.nanMarker ≠ PlotEntry.val 0 :=
  claim_C9_buffer_invariant 1 ⟨"t", none, some 2, none, none⟩
    ⟨[0], [PlotEntry.val 1], [PlotEntry.val 1], [PlotEntry.val 1],
      [PlotEntry.val 1], 1⟩ 0
    (by unfold plotInv; refine ⟨by simp, by simp, by simp, by simp, by simp⟩)

/-- Claim C10 counterexample: with `appendMode = false` on an existing
target, the CLI opens in append mode without a header while the GUI opens
in truncate mode and writes a header — the two front ends disagree. -/
theorem claim_C10_counterexample :
    cliDecision false true ≠ guiDecision false true := by
  decide

/-- Claim C10 as amended: the CLI and GUI front ends compute the same
(open mode, write-header) decision exactly when the append flag equals the
target-exists flag; in the two mixed combinations the CLI appends without
a header while the GUI truncates and writes a header. -/
theorem claim_C10_decision_agreement :
    (∀ a f : Bool, cliDecision a f = guiDecision a f ↔ a = f) ∧
    cliDecision false true = ("a", false) ∧
    guiDecision false true = ("w", true) ∧
    cliDecision true false = ("a", false) ∧
    guiDecision true false = ("w", true) := by
  decide

end Thermo
